import Mathlib

/-!
Verification of the PCBOT command/plugin runtime against its specification.

The definitions below are shallow embeddings of the Python source:
* `pcbot/config.py` — the persisted-config store (`Config.__init__`, `load`, `save`);
* `bot.py` — the tokenizer (`shlex.split` with whitespace fallback), the fuzzy
  entity resolver (`find_member`/`find_channel`), the plugin loader
  (`load_plugin`) and the `!lambda` command handler;
* `pcbot/builtin.py` — the lambda subsystem (`add`, `enable`, `disable`) and
  the lambda-dispatch message hook (`on_message`).

Python dictionaries are modelled as association lists (insertion order kept,
keys unique in reachable states), JSON-compatible values as the inductive `J`,
exceptions as `Except`, and external effects (messages sent to the channel,
log records, file writes) as explicit output fields.
-/

/-- JSON-compatible value held by a config document (object, array, scalar or
null), as produced by `json.load` in `pcbot/config.py`. -/
inductive J where
  | null : J
  | bool : Bool → J
  | num : Int → J
  | str : String → J
  | arr : List J → J
  | obj : List (String × J) → J

/-- Python `bool` to `int` coercion, used by `==` between booleans and numbers. -/
def pyBoolInt (b : Bool) : Int := if b then 1 else 0

/-- Python truthiness of a JSON-compatible value (`None`, `False`, `0`, `""`,
`[]` and `{}` are falsy). -/
def truthy : J → Bool
  | J.null => false
  | J.bool b => b
  | J.num n => n != 0
  | J.str s => s != ""
  | J.arr l => !l.isEmpty
  | J.obj l => !l.isEmpty

/-- Truthiness for an optional value, where `none` models Python `None`. -/
def truthyOpt : Option J → Bool
  | none => false
  | some v => truthy v

mutual

/-- Python `==` on JSON-compatible values: numbers compare with booleans
through the bool-to-int coercion, lists compare pointwise, dictionaries
compare by key lookup (order-insensitive). -/
def pyEq : J → J → Bool
  | J.null, J.null => true
  | J.bool a, J.bool b => a == b
  | J.num a, J.num b => a == b
  | J.bool a, J.num b => pyBoolInt a == b
  | J.num a, J.bool b => a == pyBoolInt b
  | J.str a, J.str b => a == b
  | J.arr a, J.arr b => pyEqList a b
  | J.obj a, J.obj b => a.length == b.length && pyEqObj a b
  | _, _ => false

/-- Pointwise Python `==` on lists of values. -/
def pyEqList : List J → List J → Bool
  | [], [] => true
  | a :: as, b :: bs => pyEq a b && pyEqList as bs
  | _, _ => false

/-- Every entry of the first dictionary has an equal entry in the second. -/
def pyEqObj : List (String × J) → List (String × J) → Bool
  | [], _ => true
  | (k, v) :: rest, b => pyEqFind k v b && pyEqObj rest b

/-- Look up key `k` in a dictionary and compare the stored value with `v`. -/
def pyEqFind : String → J → List (String × J) → Bool
  | _, _, [] => false
  | k, v, (k2, w) :: bs => if k == k2 then pyEq v w else pyEqFind k v bs

end

/-- Python `==` lifted to optional values; `None` equals only `None`. -/
def pyEqOpt : Option J → Option J → Bool
  | none, none => true
  | some a, some b => pyEq a b
  | _, _ => false

/-- Exceptions raised by the embedded Python code. -/
inductive PyErr where
  | attrError : PyErr
deriving DecidableEq

/-- Result of constructing a `Config`: the in-memory `data` field (`none`
models Python `None`) and the sequence of values written by `save()` calls,
in order. -/
structure ConfigResult where
  data : Option J
  saves : List (Option J)

/-- The default-merge loop of `Config.__init__` (config.py lines 50-54):
for each `(k, v)` of the default dict, add it to the loaded dict when the key
is absent, flagging `updated`.  The membership test sees keys added by
earlier iterations, exactly as the mutating Python loop does. -/
def mergeDefaults : List (String × J) → Bool → List (String × J) → List (String × J) × Bool
  | acc, upd, [] => (acc, upd)
  | acc, upd, (k, v) :: rest =>
    if (acc.lookup k).isSome then mergeDefaults acc upd rest
    else mergeDefaults (acc ++ [(k, v)]) true rest

/-- `Config.__init__` (config.py lines 43-64) with `load=True`, given the
default `data` argument and the value returned by `self.load()` (`none` when
the file is missing or malformed).  Branches:
* default given and loaded value falsy: `self.data = data`, then the final
  `if not self.data == loaded_data: self.save()`;
* loaded value truthy: when it is a dict, iterate `data.items()` — an
  `AttributeError` when the default is `None` or not a dict — merging missing
  keys and saving when updated; `self.data = loaded_data`, so the final
  comparison is identity-true and never saves again;
* otherwise: `self.data = None`, then the final comparison/save. -/
def configInit (dflt loaded : Option J) : Except PyErr ConfigResult :=
  if dflt.isSome && !truthyOpt loaded then
    Except.ok ⟨dflt, if pyEqOpt dflt loaded then [] else [dflt]⟩
  else if truthyOpt loaded then
    match loaded with
    | some (J.obj o) =>
      match dflt with
      | some (J.obj dl) =>
        let md := mergeDefaults o false dl
        Except.ok ⟨some (J.obj md.1), if md.2 then [some (J.obj md.1)] else []⟩
      | _ => Except.error PyErr.attrError
    | _ => Except.ok ⟨loaded, []⟩
  else
    Except.ok ⟨none, if pyEqOpt none loaded then [] else [none]⟩

/-- `Config.load` (config.py lines 74-85): `none` when the file is missing,
`some none` when its content is malformed, `some (some v)` when it parses. -/
def configLoad (file : Option (Option J)) : Option J :=
  match file with
  | some (some v) => some v
  | _ => none

/-- Opening a config document against the given backing-file state. -/
def configOpen (dflt : Option J) (file : Option (Option J)) : Except PyErr ConfigResult :=
  configInit dflt (configLoad file)

/-- The backing file after a construction: the last value written by `save()`,
or the original file state when nothing was saved. -/
def fileAfter (orig : Option (Option J)) (saves : List (Option J)) : Option (Option J) :=
  match saves.getLast? with
  | some v => some v
  | none => orig

/-- The merge the specification describes: the parsed object is the base and
every key of the default absent from it is appended with its default value
(one level deep). -/
def specMerge (parsed dflt : List (String × J)) : List (String × J) :=
  parsed ++ dflt.filter (fun kv => (parsed.lookup kv.1).isNone)

theorem filterCongr {α : Type} (p q : α → Bool) :
    ∀ (l : List α), (∀ a ∈ l, p a = q a) → l.filter p = l.filter q := by
  intro l
  induction l with
  | nil => intro _; rfl
  | cons a tl ih =>
    intro h
    simp only [List.filter_cons, h a (by simp)]
    rw [ih (fun b hb => h b (by simp [hb]))]

theorem anyCongr {α : Type} (p q : α → Bool) :
    ∀ (l : List α), (∀ a ∈ l, p a = q a) → l.any p = l.any q := by
  intro l
  induction l with
  | nil => intro _; rfl
  | cons a tl ih =>
    intro h
    simp only [List.any_cons, h a (by simp)]
    rw [ih (fun b hb => h b (by simp [hb]))]

theorem lookup_snoc (acc : List (String × J)) (k k' : String) (v : J)
    (h : k' ≠ k) : (acc ++ [(k, v)]).lookup k' = acc.lookup k' := by
  induction acc with
  | nil =>
    have hbeq : (k' == k) = false := by simp [h]
    simp [List.lookup, hbeq]
  | cons p rest ih =>
    cases p with
    | mk pk pv =>
      by_cases hk : k' = pk
      · simp [List.lookup, hk]
      · have hbeq : (k' == pk) = false := by simp [hk]
        simp only [List.cons_append, List.lookup, hbeq]
        exact ih

theorem mergeDefaults_eq (dl : List (String × J)) :
    ∀ (acc : List (String × J)) (upd : Bool), (dl.map Prod.fst).Nodup →
    mergeDefaults acc upd dl =
      (acc ++ dl.filter (fun kv => (acc.lookup kv.1).isNone),
       upd || dl.any (fun kv => (acc.lookup kv.1).isNone)) := by
  induction dl with
  | nil => intro acc upd _; simp [mergeDefaults]
  | cons hd tl ih =>
    intro acc upd hnd
    cases hd with
    | mk k v =>
      have hnd' : (tl.map Prod.fst).Nodup := by
        simp only [List.map_cons] at hnd
        exact hnd.of_cons
      have hk : k ∉ tl.map Prod.fst := by
        simp only [List.map_cons, List.nodup_cons] at hnd
        exact hnd.1
      cases hcase : acc.lookup k with
      | some w =>
        rw [mergeDefaults]
        simp only [hcase, Option.isSome_some, if_true]
        rw [ih acc upd hnd']
        have hfilt : ((acc.lookup (k, v).1).isNone : Bool) = false := by
          simp [hcase]
        simp [List.filter_cons, List.any_cons, hfilt]
      | none =>
        rw [mergeDefaults]
        simp only [hcase, Option.isSome_none, if_false]
        rw [ih (acc ++ [(k, v)]) true hnd']
        have hstable : ∀ kv ∈ tl, (((acc ++ [(k, v)]).lookup kv.1).isNone : Bool)
            = ((acc.lookup kv.1).isNone : Bool) := by
          intro kv hmem
          have hne : kv.1 ≠ k := by
            intro heq
            exact hk (heq ▸ List.mem_map.mpr ⟨kv, hmem, rfl⟩)
          rw [lookup_snoc acc k kv.1 v hne]
        rw [filterCongr _ _ tl hstable, anyCongr _ _ tl hstable]
        have hfilt : ((acc.lookup (k, v).1).isNone : Bool) = true := by
          simp [hcase]
        simp [List.filter_cons, List.any_cons, hfilt]

theorem filter_nil_of_any_false {α : Type} (p : α → Bool) :
    ∀ (l : List α), l.any p = false → l.filter p = [] := by
  intro l
  induction l with
  | nil => intro _; rfl
  | cons a tl ih =>
    intro h
    simp only [List.any_cons, Bool.or_eq_false_iff] at h
    simp [List.filter_cons, h.1, ih h.2]

theorem specMerge_nil_left (dl : List (String × J)) : specMerge [] dl = dl := by
  simp only [specMerge, List.nil_append]
  apply List.filter_eq_self.mpr
  intro a _
  rfl

/-- C5: opening a config with an object default against a file parsing to an
object uses the parsed object as the base, appends each default key absent
from it (one level deep), and leaves the backing file holding exactly the
merged result (re-saving it whenever a key was added). -/
theorem C5_open_merges_and_persists (o dl : List (String × J))
    (hnd : (dl.map Prod.fst).Nodup) :
    configOpen (some (J.obj dl)) (some (some (J.obj o))) =
      Except.ok ⟨some (J.obj (specMerge o dl)),
        if dl.any (fun kv => (o.lookup kv.1).isNone)
        then [some (J.obj (specMerge o dl))] else []⟩ ∧
    fileAfter (some (some (J.obj o)))
      (if dl.any (fun kv => (o.lookup kv.1).isNone)
       then [some (J.obj (specMerge o dl))] else []) =
      some (some (J.obj (specMerge o dl))) := by
  cases o with
  | cons a as =>
    have h := mergeDefaults_eq dl (a :: as) false hnd
    constructor
    · simp only [configOpen, configLoad, configInit, truthyOpt, truthy,
        List.isEmpty_cons, Bool.not_false, Bool.not_true, Option.isSome_some,
        Bool.true_and, Bool.and_false, if_false, if_true, h, Bool.false_or]
      rfl
    · cases hany : (dl.any (fun kv => ((a :: as).lookup kv.1).isNone)) with
      | true => simp [fileAfter]
      | false =>
        have hfilt := filter_nil_of_any_false _ dl hany
        simp [fileAfter, specMerge, hfilt]
  | nil =>
    cases dl with
    | nil =>
      constructor
      · simp [configOpen, configLoad, configInit, truthyOpt, truthy, pyEqOpt,
          pyEq, pyEqObj, specMerge, List.lookup]
      · simp [fileAfter, specMerge]
    | cons d ds =>
      constructor
      · simp only [configOpen, configLoad, configInit, truthyOpt, truthy,
          List.isEmpty_nil, Bool.not_true, Bool.not_false, Option.isSome_some,
          Bool.true_and, if_true, pyEqOpt, pyEq, List.length_cons,
          specMerge_nil_left]
        have hlen : ((d :: ds).length == ([] : List (String × J)).length) = false := by
          simp
        have hany : ((d :: ds).any fun kv =>
            (([] : List (String × J)).lookup kv.1).isNone) = true := by
          simp [List.lookup]
        simp [hlen, hany]
      · simp [fileAfter, specMerge_nil_left, List.lookup]

/-- C5 witness: opening with default `{"a":1,"b":2}` against a file holding
`{"a":5}` yields `{"a":5,"b":2}` and persists the merged object. -/
theorem C5_witness :
    configOpen (some (J.obj [("a", J.num 1), ("b", J.num 2)]))
        (some (some (J.obj [("a", J.num 5)]))) =
      Except.ok ⟨some (J.obj [("a", J.num 5), ("b", J.num 2)]),
        [some (J.obj [("a", J.num 5), ("b", J.num 2)])]⟩ ∧
    fileAfter (some (some (J.obj [("a", J.num 5)])))
        [some (J.obj [("a", J.num 5), ("b", J.num 2)])] =
      some (some (J.obj [("a", J.num 5), ("b", J.num 2)])) := by
  have h := C5_open_merges_and_persists [("a", J.num 5)]
    [("a", J.num 1), ("b", J.num 2)] (by simp)
  simpa [specMerge, List.lookup] using h

/-- C10: opening a config with no default against a file parsing to a
non-empty JSON object raises an `AttributeError` (the merge loop iterates
`None.items()`); with no default, open succeeds exactly when the file is
missing, malformed, or holds a non-object or falsy value. -/
theorem C10_open_no_default :
    (∀ o : List (String × J), o ≠ [] →
      configOpen none (some (some (J.obj o))) = Except.error PyErr.attrError) ∧
    (∀ file : Option (Option J), (∀ o, configLoad file = some (J.obj o) → o = []) →
      ∃ r, configOpen none file = Except.ok r) := by
  constructor
  · intro o ho
    cases o with
    | nil => exact absurd rfl ho
    | cons a as => rfl
  · intro file h
    rcases hload : configLoad file with _ | v
    · exact ⟨⟨none, []⟩, by simp [configOpen, hload, configInit, truthyOpt, pyEqOpt]⟩
    · rw [configOpen, hload]
      cases htruth : truthy v with
      | false =>
        refine ⟨⟨none, if pyEqOpt none (some v) then [] else [none]⟩, ?_⟩
        simp [configInit, truthyOpt, htruth]
      | true =>
        cases v with
        | obj o =>
          have := h o hload
          subst this
          simp [truthy] at htruth
        | null => simp [truthy] at htruth
        | bool b =>
          refine ⟨⟨some (J.bool b), []⟩, ?_⟩
          simp [configInit, truthyOpt, htruth]
        | num n =>
          refine ⟨⟨some (J.num n), []⟩, ?_⟩
          simp [configInit, truthyOpt, htruth]
        | str s =>
          refine ⟨⟨some (J.str s), []⟩, ?_⟩
          simp [configInit, truthyOpt, htruth]
        | arr l =>
          refine ⟨⟨some (J.arr l), []⟩, ?_⟩
          simp [configInit, truthyOpt, htruth]

/-- C10 witness: a file holding `{"a":5}` makes default-less open raise,
while a malformed file succeeds. -/
theorem C10_witness :
    configOpen none (some (some (J.obj [("a", J.num 5)]))) =
      Except.error PyErr.attrError ∧
    ∃ r, configOpen none (some none) = Except.ok r := by
  refine ⟨C10_open_no_default.1 [("a", J.num 5)] (by simp), ?_⟩
  exact C10_open_no_default.2 (some none) (by intro o h; simp [configLoad] at h)

/-- Python `str.lower()` (for the ASCII fragment the bot handles), defined
character-wise so that it evaluates inside the kernel. -/
def pyLower (s : String) : String := String.mk (s.data.map Char.toLower)

/-- Python `" ".join(...)` / `str.join`. -/
def pyJoin (sep : String) : List String → String
  | [] => ""
  | [x] => x
  | x :: xs => x ++ sep ++ pyJoin sep xs

/-- Python string slicing `s[n:]` (character-indexed). -/
def pyDrop (s : String) (n : Nat) : String := String.mk (s.data.drop n)

/-- Python `len(s)` for strings (character count). -/
def pyLen (s : String) : Nat := s.data.length

/-- Python dict assignment `d[k] = v`: replace the value in place when the key
exists (insertion order kept), else append the new entry. -/
def dictSet (l : List (String × String)) (k v : String) : List (String × String) :=
  if (l.lookup k).isSome then l.map (fun p => if p.1 = k then (k, v) else p)
  else l ++ [(k, v)]

/-- Python `dict.pop(k)`: drop the entry with key `k`. -/
def dictPop (l : List (String × String)) (k : String) : List (String × String) :=
  l.eraseP (fun p => p.1 == k)

/-- Result of one of the builtin lambda management commands in
`pcbot/builtin.py`: the resulting stored-lambda dict, the message said
in-channel, and whether the backing document was saved. -/
structure LambdaCmdResult where
  lambdas : List (String × String)
  msg : String
  saved : Bool
deriving DecidableEq

/-- `add` (builtin.py lines 256-262): stores `python_code` under `trigger`
unconditionally (overwriting any existing body), saves, and reports
"set". -/
def builtinAdd (lambdas : List (String × String)) (trigger pythonCode : String) :
    LambdaCmdResult :=
  ⟨dictSet lambdas trigger pythonCode, "Command `" ++ trigger ++ "` set.", true⟩

/-- Result of `enable`/`disable` (builtin.py): the new blacklist, whether the
config was saved, the message said in-channel, and the message of a failed
`assert` (delivered to the user by the core command machinery). -/
structure ToggleResult where
  blacklist : List String
  saved : Bool
  msg : Option String
  assertMsg : Option String
deriving DecidableEq

/-- `disable` (builtin.py lines 293-306): blacklist the trigger when it is not
blacklisted yet — regardless of whether it is stored — else assert it is
stored ("does not exist" on failure) and report "already disabled". -/
def builtinDisable (lambdas : List (String × String)) (blacklist : List String)
    (trigger : String) : ToggleResult :=
  if !blacklist.contains trigger then
    ⟨blacklist ++ [trigger], true, some ("Command `" ++ trigger ++ "` disabled."), none⟩
  else if (lambdas.lookup trigger).isSome then
    ⟨blacklist, false, some ("Command `" ++ trigger ++ "` is already disabled."), none⟩
  else
    ⟨blacklist, false, none, some ("Command `" ++ trigger ++ "` does not exist.")⟩

/-- `enable` (builtin.py lines 277-290): remove the trigger from the blacklist
when present, else assert it is stored and report "already enabled". -/
def builtinEnable (lambdas : List (String × String)) (blacklist : List String)
    (trigger : String) : ToggleResult :=
  if blacklist.contains trigger then
    ⟨blacklist.erase trigger, true, some ("Command `" ++ trigger ++ "` enabled."), none⟩
  else if (lambdas.lookup trigger).isSome then
    ⟨blacklist, false, some ("Command `" ++ trigger ++ "` is already enabled."), none⟩
  else
    ⟨blacklist, false, none, some ("Command `" ++ trigger ++ "` does not exist.")⟩

/-- Outcome of compiling and running a stored lambda body (the Python
semantics of the body itself are external to this embedding): it compiles and
runs to completion, fails to compile, raises `AssertionError`, or raises any
other exception.  The carried string is the formatted error detail. -/
inductive RunOutcome where
  | success : RunOutcome
  | synErr : String → RunOutcome
  | assertFail : String → RunOutcome
  | runErr : String → RunOutcome

/-- Observable behaviour of the lambda-dispatch message hook: messages said to
the invoking channel, records written to the operational log, an exception
escaping the handler (if any), whether the lambda branch was entered, and the
hook's return value. -/
structure HookResult where
  channelMsgs : List String
  logMsgs : List String
  raised : Option String
  dispatched : Bool
  handled : Option Bool
deriving DecidableEq

/-- In-channel error formatting used by builtin.py: a code block. -/
def codeBlock (d : String) : String := "```" ++ d ++ "```"

/-- The log line builtin.py writes for a non-owner lambda failure. -/
def lambdaWarn (d : String) : String :=
  "An exception occurred when parsing lambda command:\n" ++ d

/-- The lambda-dispatch hook `on_message` (builtin.py lines 459-500): when the
first token is a stored, non-blacklisted trigger, compile and run the body;
a compile failure is shown to the owner in-channel and only logged otherwise;
an `AssertionError` from the body is re-raised (for the core to report); any
other exception is shown to the owner in-channel and only logged otherwise.
With no tokens at all, `args[0]` raises `IndexError`. -/
def builtinOnMessage (lambdas : List (String × String)) (blacklist : List String)
    (args : List String) (isOwner : Bool) (run : RunOutcome) : HookResult :=
  match args with
  | [] => ⟨[], [], some "IndexError", false, none⟩
  | a0 :: _ =>
    if (lambdas.lookup a0).isSome && !blacklist.contains a0 then
      match run with
      | RunOutcome.synErr d =>
        if isOwner then ⟨[codeBlock d], [], none, true, some true⟩
        else ⟨[], [lambdaWarn d], none, true, some true⟩
      | RunOutcome.success => ⟨[], [], none, true, some true⟩
      | RunOutcome.assertFail d => ⟨[], [], some d, true, none⟩
      | RunOutcome.runErr d =>
        if isOwner then ⟨[codeBlock d], [], none, true, some true⟩
        else ⟨[], [lambdaWarn d], none, true, some true⟩
    else ⟨[], [], none, false, none⟩

/-- State owned by the `!lambda` handler in bot.py: the stored lambda dict
and the (unpersisted) blacklist. -/
structure BotLambdaState where
  lambdas : List (String × String)
  blacklist : List String
deriving DecidableEq

/-- Result of the `!lambda` handler: the new state, the message sent (when
the accumulated `m` is non-empty), and whether `self.lambdas.save()` ran. -/
structure BotLambdaResult where
  state : BotLambdaState
  msg : Option String
  saved : Bool
deriving DecidableEq

/-- The `!lambda` command handler (bot.py lines 256-307).  `args` is the token
list (`args[0]` is `"!lambda"`), `content` the raw message text.  With fewer
than three tokens no message is produced; the trigger name is lowercased; the
`add` body is the raw text after the first three tokens. -/
def botLambdaCommand (st : BotLambdaState) (args : List String) (content : String) :
    BotLambdaResult :=
  match args with
  | a0 :: sub :: nameRaw :: rest =>
    let name := pyLower nameRaw
    let base := "Command `" ++ name ++ "` "
    if sub == "add" && !rest.isEmpty then
      let cmd := pyDrop content (pyLen (pyJoin " " [a0, sub, nameRaw]) + 1)
      if (st.lambdas.lookup name).isSome then
        ⟨st, some (base ++ "already exists."), false⟩
      else
        ⟨⟨dictSet st.lambdas name cmd, st.blacklist⟩, some (base ++ "set."), true⟩
    else if sub == "remove" then
      if (st.lambdas.lookup name).isSome then
        ⟨⟨dictPop st.lambdas name, st.blacklist⟩, some (base ++ "removed."), true⟩
      else ⟨st, some (base ++ "does not exist."), false⟩
    else if sub == "disable" then
      if !st.blacklist.contains name then
        ⟨⟨st.lambdas, st.blacklist ++ [name]⟩, some (base ++ "disabled."), true⟩
      else if (st.lambdas.lookup name).isSome then
        ⟨st, some (base ++ "is already disabled."), false⟩
      else ⟨st, some (base ++ "does not exist."), false⟩
    else if sub == "enable" then
      if st.blacklist.contains name then
        ⟨⟨st.lambdas, st.blacklist.erase name⟩, some (base ++ "enabled."), true⟩
      else if (st.lambdas.lookup name).isSome then
        ⟨st, some (base ++ "is already enabled."), false⟩
      else ⟨st, some (base ++ "does not exist."), false⟩
    else if sub == "source" then
      match st.lambdas.lookup name with
      | some body => ⟨st, some ("Source for " ++ name ++ ": \n" ++ body), false⟩
      | none => ⟨st, some (base ++ "does not exist."), false⟩
    else ⟨st, some base, false⟩
  | _ => ⟨st, none, false⟩

theorem lookup_map_replace (tl : List (String × String)) (k v : String) :
    (tl.lookup k).isSome = true →
    ((tl.map (fun p => if p.1 = k then (k, v) else p)).lookup k) = some v := by
  induction tl with
  | nil => intro h; simp [List.lookup] at h
  | cons p tl ih =>
    cases p with
    | mk pk pv =>
      intro h
      by_cases hk : pk = k
      · subst hk
        have hmap : List.map (fun p => if p.1 = pk then (pk, v) else p) ((pk, pv) :: tl)
            = (pk, v) :: List.map (fun p => if p.1 = pk then (pk, v) else p) tl := by
          simp
        rw [hmap]
        simp [List.lookup]
      · have hbeq : (k == pk) = false := by simp [Ne.symm hk]
        have hmap : List.map (fun p => if p.1 = k then (k, v) else p) ((pk, pv) :: tl)
            = (pk, pv) :: List.map (fun p => if p.1 = k then (k, v) else p) tl := by
          simp [hk]
        simp only [List.lookup, hbeq] at h
        rw [hmap]
        simp only [List.lookup, hbeq]
        exact ih h

theorem lookup_append_left_none (l : List (String × String)) (k v : String) :
    l.lookup k = none → ((l ++ [(k, v)]).lookup k) = some v := by
  induction l with
  | nil => intro _; simp [List.lookup]
  | cons p tl ih =>
    cases p with
    | mk pk pv =>
      intro h
      by_cases hk : k = pk
      · simp [List.lookup, hk] at h
      · have hbeq : (k == pk) = false := by simp [hk]
        simp only [List.lookup, hbeq] at h
        simp only [List.cons_append, List.lookup, hbeq]
        exact ih h

theorem lookup_dictSet (l : List (String × String)) (k v : String) :
    (dictSet l k v).lookup k = some v := by
  rw [dictSet]
  cases h : (l.lookup k) with
  | some w =>
    have hs : (l.lookup k).isSome = true := by simp [h]
    simp only [h, Option.isSome_some, if_true]
    exact lookup_map_replace l k v hs
  | none =>
    simp only [h, Option.isSome_none, if_false]
    exact lookup_append_left_none l k v h

/-- C1 counterexample: `add` in builtin.py does not report "already exists"
for a stored trigger — it overwrites the stored body and reports "set". -/
theorem C1_counterexample :
    (builtinAdd [("x", "old")] "x" "new").lambdas.lookup "x" = some "new" ∧
    (builtinAdd [("x", "old")] "x" "new").msg = "Command `x` set." ∧
    (builtinAdd [("x", "old")] "x" "new").saved = true := by
  refine ⟨by decide, by decide, by decide⟩

/-- C1 amended: the `!lambda add` handler in bot.py reports "already exists"
and changes nothing (and saves nothing) when the lowercased trigger is already
stored; when it is absent it stores the raw text after the first three tokens
under the trigger and persists.  builtin.py's `add`, by contrast, overwrites
unconditionally. -/
theorem C1_bot_lambda_add (st : BotLambdaState) (a0 nameRaw content : String)
    (rest : List String) (hrest : rest ≠ []) :
    ((st.lambdas.lookup (pyLower nameRaw)).isSome = true →
      botLambdaCommand st (a0 :: "add" :: nameRaw :: rest) content =
        ⟨st, some ("Command `" ++ pyLower nameRaw ++ "` already exists."), false⟩) ∧
    (st.lambdas.lookup (pyLower nameRaw) = none →
      (botLambdaCommand st (a0 :: "add" :: nameRaw :: rest) content =
        ⟨⟨dictSet st.lambdas (pyLower nameRaw)
            (pyDrop content (pyLen (pyJoin " " [a0, "add", nameRaw]) + 1)),
          st.blacklist⟩,
         some ("Command `" ++ pyLower nameRaw ++ "` set."), true⟩ ∧
       (botLambdaCommand st (a0 :: "add" :: nameRaw :: rest) content).state.lambdas.lookup
           (pyLower nameRaw) =
         some (pyDrop content (pyLen (pyJoin " " [a0, "add", nameRaw]) + 1)))) := by
  have hr : rest.isEmpty = false := by
    cases rest with
    | nil => exact absurd rfl hrest
    | cons a tl => rfl
  constructor
  · intro hs
    simp [botLambdaCommand, hr, hs, String.append_assoc]
  · intro hn
    have hs : (st.lambdas.lookup (pyLower nameRaw)).isSome = false := by simp [hn]
    constructor
    · simp [botLambdaCommand, hr, hs, String.append_assoc]
    · simp [botLambdaCommand, hr, hs, lookup_dictSet]

/-- C1 witness: adding trigger "t" twice through the bot.py handler — the
second add reports "already exists" and leaves the stored body unchanged. -/
theorem C1_witness :
    botLambdaCommand ⟨[], []⟩ ["!lambda", "add", "T", "say(1)"] "!lambda add T say(1)" =
      ⟨⟨[("t", "say(1)")], []⟩, some ("Command `t` set."), true⟩ ∧
    botLambdaCommand ⟨[("t", "say(1)")], []⟩ ["!lambda", "add", "T", "say(2)"]
        "!lambda add T say(2)" =
      ⟨⟨[("t", "say(1)")], []⟩, some ("Command `t` already exists."), false⟩ := by
  constructor
  · have h := (C1_bot_lambda_add ⟨[], []⟩ "!lambda" "T" "!lambda add T say(1)"
      ["say(1)"] (by simp)).2 (by decide)
    rw [h.1]
    decide
  · have h := (C1_bot_lambda_add ⟨[("t", "say(1)")], []⟩ "!lambda" "T"
      "!lambda add T say(2)" ["say(2)"] (by simp)).1 (by decide)
    rw [h]
    decide

theorem mem_of_contains_true {l : List String} {a : String}
    (h : l.contains a = true) : a ∈ l := by
  simpa using h

theorem not_mem_of_contains_false {l : List String} {a : String}
    (h : l.contains a = false) : a ∉ l := by
  simpa using h

/-- C2 counterexample: a stored body that raises `AssertionError` at runtime,
invoked by a non-owner, is neither logged nor reported in-channel — the
exception is re-raised out of the message handler. -/
theorem C2_counterexample :
    (builtinOnMessage [("hi", "assert False")] [] ["hi"] false
        (RunOutcome.assertFail "boom")).raised = some "boom" ∧
    (builtinOnMessage [("hi", "assert False")] [] ["hi"] false
        (RunOutcome.assertFail "boom")).logMsgs = [] ∧
    (builtinOnMessage [("hi", "assert False")] [] ["hi"] false
        (RunOutcome.assertFail "boom")).channelMsgs = [] := by
  refine ⟨by decide, by decide, by decide⟩

/-- C2 amended: for a stored, non-blacklisted trigger whose body fails to
compile or raises a non-assertion exception at runtime, the owner sees the
error detail in-channel (nothing logged), any other invoker gets nothing
in-channel and the detail is logged, and the failure does not escape the
handler; a runtime `AssertionError`, however, is re-raised out of the handler
for the core command machinery to report. -/
theorem C2_error_gating (lambdas : List (String × String)) (blacklist : List String)
    (a0 : String) (rest : List String) (owner : Bool) (d : String)
    (hs : (lambdas.lookup a0).isSome = true) (hb : blacklist.contains a0 = false) :
    ((builtinOnMessage lambdas blacklist (a0 :: rest) owner (RunOutcome.synErr d)).raised
        = none ∧
     (owner = true →
       (builtinOnMessage lambdas blacklist (a0 :: rest) owner
           (RunOutcome.synErr d)).channelMsgs = [codeBlock d] ∧
       (builtinOnMessage lambdas blacklist (a0 :: rest) owner
           (RunOutcome.synErr d)).logMsgs = []) ∧
     (owner = false →
       (builtinOnMessage lambdas blacklist (a0 :: rest) owner
           (RunOutcome.synErr d)).channelMsgs = [] ∧
       (builtinOnMessage lambdas blacklist (a0 :: rest) owner
           (RunOutcome.synErr d)).logMsgs = [lambdaWarn d])) ∧
    ((builtinOnMessage lambdas blacklist (a0 :: rest) owner (RunOutcome.runErr d)).raised
        = none ∧
     (owner = true →
       (builtinOnMessage lambdas blacklist (a0 :: rest) owner
           (RunOutcome.runErr d)).channelMsgs = [codeBlock d] ∧
       (builtinOnMessage lambdas blacklist (a0 :: rest) owner
           (RunOutcome.runErr d)).logMsgs = []) ∧
     (owner = false →
       (builtinOnMessage lambdas blacklist (a0 :: rest) owner
           (RunOutcome.runErr d)).channelMsgs = [] ∧
       (builtinOnMessage lambdas blacklist (a0 :: rest) owner
           (RunOutcome.runErr d)).logMsgs = [lambdaWarn d])) := by
  have hbm : a0 ∉ blacklist := not_mem_of_contains_false hb
  cases owner <;> simp [builtinOnMessage, hs, hb, hbm]

/-- C2 witness: a syntax-failing body for a stored trigger — the owner sees
the detail in-channel, a non-owner invocation only logs it. -/
theorem C2_witness :
    (builtinOnMessage [("hi", "1=")] [] ["hi"] true (RunOutcome.synErr "bad")).channelMsgs
      = [codeBlock "bad"] ∧
    (builtinOnMessage [("hi", "1=")] [] ["hi"] false (RunOutcome.synErr "bad")).channelMsgs
      = [] ∧
    (builtinOnMessage [("hi", "1=")] [] ["hi"] false (RunOutcome.synErr "bad")).logMsgs
      = [lambdaWarn "bad"] := by
  have h1 := C2_error_gating [("hi", "1=")] [] "hi" [] true "bad" (by decide) (by decide)
  have h2 := C2_error_gating [("hi", "1=")] [] "hi" [] false "bad" (by decide) (by decide)
  exact ⟨(h1.1.2.1 rfl).1, (h2.1.2.2 rfl).1, (h2.1.2.2 rfl).2⟩

/-- C4 counterexample: a message whose first token matches a stored trigger
case-insensitively but not exactly does not invoke the lambda — dispatch
lookup is case-sensitive. -/
theorem C4_counterexample :
    (builtinOnMessage [("foo", "say(1)")] [] ["Foo"] true RunOutcome.success).dispatched
      = false ∧
    pyLower "Foo" = "foo" ∧
    (([("foo", "say(1)")] : List (String × String)).lookup "foo").isSome = true := by
  refine ⟨by decide, by decide, by decide⟩

theorem dispatched_iff (lambdas : List (String × String)) (blacklist : List String)
    (a0 : String) (rest : List String) (owner : Bool) (run : RunOutcome) :
    (builtinOnMessage lambdas blacklist (a0 :: rest) owner run).dispatched = true ↔
      ((lambdas.lookup a0).isSome = true ∧ blacklist.contains a0 = false) := by
  by_cases hs : (lambdas.lookup a0).isSome = true
  · by_cases hb : blacklist.contains a0 = false
    · have hbm : a0 ∉ blacklist := not_mem_of_contains_false hb
      cases run <;> cases owner <;> simp [builtinOnMessage, hs, hb, hbm]
    · have hb' : blacklist.contains a0 = true := by
        cases h : blacklist.contains a0
        · exact absurd h hb
        · rfl
      have hbm : a0 ∈ blacklist := mem_of_contains_true hb'
      simp [builtinOnMessage, hs, hb', hbm]
  · have hs' : (lambdas.lookup a0).isSome = false := by
      cases h : (lambdas.lookup a0).isSome
      · rfl
      · exact absurd h hs
    simp [builtinOnMessage, hs']

/-- C4 amended: the lambda branch of the dispatch hook runs exactly when the
message's first token equals a stored trigger as an exact (case-sensitive)
string and that trigger is not blacklisted. -/
theorem C4_dispatch_exact (lambdas : List (String × String)) (blacklist : List String)
    (a0 : String) (rest : List String) (owner : Bool) (run : RunOutcome) :
    (builtinOnMessage lambdas blacklist (a0 :: rest) owner run).dispatched = true ↔
      ((lambdas.lookup a0).isSome = true ∧ blacklist.contains a0 = false) :=
  dispatched_iff lambdas blacklist a0 rest owner run

/-- C4 witness: an exact-match first token on a stored, enabled trigger
dispatches. -/
theorem C4_witness :
    (builtinOnMessage [("foo", "say(1)")] [] ["foo"] true RunOutcome.success).dispatched
      = true :=
  (C4_dispatch_exact [("foo", "say(1)")] [] "foo" [] true RunOutcome.success).mpr
    ⟨by decide, by decide⟩

/-- C6 counterexample: `disable` on a trigger that is not stored (and not yet
blacklisted) does not report "does not exist" — it appends the trigger to the
blacklist and reports "disabled". -/
theorem C6_counterexample :
    builtinDisable [] [] "x" =
      ⟨["x"], true, some ("Command `x` disabled."), none⟩ := by
  decide

/-- C6 amended: `disable` blacklists any not-yet-blacklisted trigger —
whether stored or not — reporting "disabled"; "does not exist" is reported
(via a failed assertion) only for a trigger that is already blacklisted and
not stored; symmetrically for `enable`.  Each call reports exactly one of the
three outcomes. -/
theorem C6_toggle_outcomes (lambdas : List (String × String)) (blacklist : List String)
    (t : String) :
    (blacklist.contains t = false →
      builtinDisable lambdas blacklist t =
        ⟨blacklist ++ [t], true, some ("Command `" ++ t ++ "` disabled."), none⟩) ∧
    (blacklist.contains t = true → (lambdas.lookup t).isSome = true →
      builtinDisable lambdas blacklist t =
        ⟨blacklist, false, some ("Command `" ++ t ++ "` is already disabled."), none⟩) ∧
    (blacklist.contains t = true → lambdas.lookup t = none →
      builtinDisable lambdas blacklist t =
        ⟨blacklist, false, none, some ("Command `" ++ t ++ "` does not exist.")⟩) ∧
    (blacklist.contains t = true →
      builtinEnable lambdas blacklist t =
        ⟨blacklist.erase t, true, some ("Command `" ++ t ++ "` enabled."), none⟩) ∧
    (blacklist.contains t = false → (lambdas.lookup t).isSome = true →
      builtinEnable lambdas blacklist t =
        ⟨blacklist, false, some ("Command `" ++ t ++ "` is already enabled."), none⟩) ∧
    (blacklist.contains t = false → lambdas.lookup t = none →
      builtinEnable lambdas blacklist t =
        ⟨blacklist, false, none, some ("Command `" ++ t ++ "` does not exist.")⟩) := by
  refine ⟨?_, ?_, ?_, ?_, ?_, ?_⟩
  · intro h
    have hm := not_mem_of_contains_false h
    simp [builtinDisable, h, hm]
  · intro h h2
    have hm := mem_of_contains_true h
    simp [builtinDisable, h, hm, h2]
  · intro h h2
    have hm := mem_of_contains_true h
    simp [builtinDisable, h, hm, h2]
  · intro h
    have hm := mem_of_contains_true h
    simp [builtinEnable, h, hm]
  · intro h h2
    have hm := not_mem_of_contains_false h
    simp [builtinEnable, h, hm, h2]
  · intro h h2
    have hm := not_mem_of_contains_false h
    simp [builtinEnable, h, hm, h2]

/-- C6 witness: the three disable outcomes and an enable on concrete stores. -/
theorem C6_witness :
    builtinDisable [("x", "b")] [] "x" =
      ⟨["x"], true, some ("Command `x` disabled."), none⟩ ∧
    builtinDisable [("x", "b")] ["x"] "x" =
      ⟨["x"], false, some ("Command `x` is already disabled."), none⟩ ∧
    builtinDisable [] ["x"] "x" =
      ⟨["x"], false, none, some ("Command `x` does not exist.")⟩ ∧
    builtinEnable [("x", "b")] ["x"] "x" =
      ⟨[], true, some ("Command `x` enabled."), none⟩ := by
  have h1 := (C6_toggle_outcomes [("x", "b")] [] "x").1 (by decide)
  have h2 := (C6_toggle_outcomes [("x", "b")] ["x"] "x").2.1 (by decide) (by decide)
  have h3 := (C6_toggle_outcomes [] ["x"] "x").2.2.1 (by decide) (by decide)
  have h4 := (C6_toggle_outcomes [("x", "b")] ["x"] "x").2.2.2.1 (by decide)
  refine ⟨h1, h2, h3, ?_⟩
  rw [h4]
  decide

/-- C9: a stored, enabled trigger dispatches; after `disable` it no longer
dispatches; `disable` followed by `enable` restores the original blacklist,
so the trigger dispatches again. -/
theorem C9_disable_enable_roundtrip (lambdas : List (String × String))
    (blacklist : List String) (t body : String) (rest : List String)
    (owner : Bool) (run : RunOutcome)
    (hs : lambdas.lookup t = some body) (hb : blacklist.contains t = false) :
    (builtinOnMessage lambdas blacklist (t :: rest) owner run).dispatched = true ∧
    (builtinOnMessage lambdas (builtinDisable lambdas blacklist t).blacklist
        (t :: rest) owner run).dispatched = false ∧
    (builtinEnable lambdas (builtinDisable lambdas blacklist t).blacklist t).blacklist
      = blacklist ∧
    (builtinOnMessage lambdas
        (builtinEnable lambdas (builtinDisable lambdas blacklist t).blacklist t).blacklist
        (t :: rest) owner run).dispatched = true := by
  have hs' : (lambdas.lookup t).isSome = true := by simp [hs]
  have hbm : t ∉ blacklist := not_mem_of_contains_false hb
  have hd : (builtinDisable lambdas blacklist t).blacklist = blacklist ++ [t] := by
    simp [builtinDisable, hb, hbm]
  have hcontains : (blacklist ++ [t]).contains t = true := by simp
  have hmem : t ∈ blacklist ++ [t] := mem_of_contains_true hcontains
  have hen : (builtinEnable lambdas (blacklist ++ [t]) t).blacklist = blacklist := by
    simp only [builtinEnable, hcontains, hmem, if_true]
    rw [List.erase_append_right _ hbm]
    simp
  refine ⟨(dispatched_iff lambdas blacklist t rest owner run).mpr ⟨hs', hb⟩, ?_, ?_, ?_⟩
  · rw [hd]
    cases hcase : (builtinOnMessage lambdas (blacklist ++ [t]) (t :: rest) owner run).dispatched
    · rfl
    · have h2 := (dispatched_iff lambdas (blacklist ++ [t]) t rest owner run).mp hcase
      rw [hcontains] at h2
      exact absurd h2.2 (by simp)
  · rw [hd]
    exact hen
  · rw [hd, hen]
    exact (dispatched_iff lambdas blacklist t rest owner run).mpr ⟨hs', hb⟩

/-- C9 witness: round-trip on a concrete store with trigger "hi". -/
theorem C9_witness :
    (builtinOnMessage [("hi", "say(1)")] [] ["hi"] true RunOutcome.success).dispatched
      = true ∧
    (builtinOnMessage [("hi", "say(1)")]
        (builtinDisable [("hi", "say(1)")] [] "hi").blacklist ["hi"] true
        RunOutcome.success).dispatched = false ∧
    (builtinEnable [("hi", "say(1)")]
        (builtinDisable [("hi", "say(1)")] [] "hi").blacklist "hi").blacklist = [] ∧
    (builtinOnMessage [("hi", "say(1)")]
        (builtinEnable [("hi", "say(1)")]
          (builtinDisable [("hi", "say(1)")] [] "hi").blacklist "hi").blacklist
        ["hi"] true RunOutcome.success).dispatched = true :=
  C9_disable_enable_roundtrip [("hi", "say(1)")] [] "hi" "say(1)" [] true
    RunOutcome.success (by decide) (by decide)

/-- Python `str.startswith`. -/
def pyStartsWith (s pre : String) : Bool := pre.data.isPrefixOf s.data

/-- Python `str.endswith`. -/
def pyEndsWith (s suf : String) : Bool := suf.data.isSuffixOf s.data

/-- Python `needle in haystack` on strings (substring containment). -/
def pyIn (needle hay : String) : Bool := decide (needle.data <:+: hay.data)

/-- Outcome of `importlib.import_module("plugins.<name>")`: the import binds
a module, raises `ImportError`, or raises some other exception (e.g. an
exception from the plugin module's own top-level code).  A module that is
already imported is returned from the import cache, so for an already-loaded
plugin the outcome is `ok`. -/
inductive ImportOutcome where
  | ok : ImportOutcome
  | importErr : ImportOutcome
  | otherErr : String → ImportOutcome

/-- `load_plugin` (bot.py lines 21-32): reject names that both start and end
with a double underscore; import the plugin unit, returning `False` only on
`ImportError`; on success (re)bind the name in the registry and return
`True`.  Any non-`ImportError` exception propagates.  The registry is modelled
by its list of loaded names. -/
def load_plugin (name : String) (registry : List String) (imp : ImportOutcome) :
    Except String (Bool × List String) :=
  if !(pyStartsWith name "__" && pyEndsWith name "__") then
    match imp with
    | ImportOutcome.ok =>
      Except.ok (true, if registry.contains name then registry else registry ++ [name])
    | ImportOutcome.importErr => Except.ok (false, registry)
    | ImportOutcome.otherErr e => Except.error e
  else Except.ok (false, registry)

/-- C7 counterexample: `load_plugin` returns `True` for an already-loaded
plugin (the cached import succeeds, and the claim says it must be `False`),
and a non-`ImportError` failure raised by the plugin unit during loading
propagates instead of being reported as `False`. -/
theorem C7_counterexample :
    load_plugin "x" ["x"] ImportOutcome.ok = Except.ok (true, ["x"]) ∧
    load_plugin "y" [] (ImportOutcome.otherErr "ValueError: boom") =
      Except.error "ValueError: boom" := by
  exact ⟨rfl, rfl⟩

/-- C7 amended: `load_plugin(n)` returns `False` when `n` is wrapped in
double underscores or the import raises `ImportError` (which covers "not
found"); it returns `True` on a successful import even when the plugin is
already loaded (the name is simply re-bound); a non-`ImportError` failure
from the plugin unit propagates to the caller. -/
theorem C7_load_plugin_cases (name : String) (registry : List String)
    (imp : ImportOutcome) :
    ((pyStartsWith name "__" && pyEndsWith name "__") = true →
      load_plugin name registry imp = Except.ok (false, registry)) ∧
    ((pyStartsWith name "__" && pyEndsWith name "__") = false →
      (load_plugin name registry ImportOutcome.ok =
        Except.ok (true, if registry.contains name then registry
                         else registry ++ [name]) ∧
       load_plugin name registry ImportOutcome.importErr =
        Except.ok (false, registry) ∧
       ∀ e, load_plugin name registry (ImportOutcome.otherErr e) =
        Except.error e)) := by
  constructor
  · intro h
    simp [load_plugin, h]
  · intro h
    refine ⟨?_, ?_, ?_⟩
    · simp [load_plugin, h]
    · simp [load_plugin, h]
    · intro e
      simp [load_plugin, h]

/-- C7 witness: a fresh plugin loads (True), an ImportError reports False,
and a dunder name is rejected. -/
theorem C7_witness :
    load_plugin "web" [] ImportOutcome.ok = Except.ok (true, ["web"]) ∧
    load_plugin "web" [] ImportOutcome.importErr = Except.ok (false, []) ∧
    load_plugin "__init__" [] ImportOutcome.ok = Except.ok (false, []) := by
  have h := (C7_load_plugin_cases "web" [] ImportOutcome.ok).2 (by decide)
  have h2 := (C7_load_plugin_cases "__init__" [] ImportOutcome.ok).1 (by decide)
  refine ⟨?_, h.2.1, h2⟩
  rw [h.1]
  rfl

/-- The three staged lookup predicates of `find_member`/`find_channel`
(bot.py lines 106-108 and 130-132), in source order: exact lowercased name
equality, lowercased prefix, lowercased substring. -/
def fuzzyChecks (name : String) : Nat → (String → Bool)
  | 0 => fun mn => pyLower mn == pyLower name
  | 1 => fun mn => pyStartsWith (pyLower mn) (pyLower name)
  | _ => fun mn => pyIn (pyLower name) (pyLower mn)

/-- The `for i in range(...)` loop of `find_member`/`find_channel`: try each
check index in order on the collection, stopping at the first check that
finds a member (`discord.utils.find` returns the first element satisfying
the predicate). -/
def findLoop (members : List String) (checks : Nat → String → Bool) :
    List Nat → Option String
  | [] => none
  | i :: rest =>
    match members.find? (checks i) with
    | some m => some m
    | none => findLoop members checks rest

/-- The name-matching phase of `find_member` (bot.py lines 104-117), reached
when the mention phase found nothing: `steps` is clamped to the number of
checks (3), and the checks run in order over the collection of names. -/
def findMemberFuzzy (members : List String) (name : String) (steps : Nat) :
    Option String :=
  findLoop members (fuzzyChecks name) (List.range (if steps ≤ 3 then steps else 3))

theorem findLoop_append (members : List String) (checks : Nat → String → Bool)
    (l₁ l₂ : List Nat) :
    findLoop members checks (l₁ ++ l₂) =
      match findLoop members checks l₁ with
      | some m => some m
      | none => findLoop members checks l₂ := by
  induction l₁ with
  | nil => simp [findLoop]
  | cons i rest ih =>
    simp only [List.cons_append, findLoop]
    cases members.find? (checks i) with
    | some m => rfl
    | none => exact ih

theorem findLoop_range_none (members : List String) (checks : Nat → String → Bool) :
    ∀ k : Nat, (findLoop members checks (List.range k) = none ↔
      ∀ i < k, members.find? (checks i) = none) := by
  intro k
  induction k with
  | zero => simp [List.range_zero, findLoop]
  | succ k ih =>
    rw [List.range_succ, findLoop_append]
    constructor
    · intro h
      cases hk : findLoop members checks (List.range k) with
      | some m => rw [hk] at h; exact absurd h (by simp)
      | none =>
        rw [hk] at h
        simp only [findLoop] at h
        intro i hi
        rcases Nat.lt_succ_iff_lt_or_eq.mp hi with hlt | heq
        · exact (ih.mp hk) i hlt
        · subst heq
          cases hf : members.find? (checks i) with
          | none => rfl
          | some m => rw [hf] at h; exact absurd h (by simp)
    · intro h
      have hk : findLoop members checks (List.range k) = none :=
        ih.mpr (fun i hi => h i (Nat.lt_succ_of_lt hi))
      rw [hk]
      simp only [findLoop]
      rw [h k (Nat.lt_succ_self k)]

theorem findLoop_range_some (members : List String) (checks : Nat → String → Bool) :
    ∀ (k : Nat) (m : String), (findLoop members checks (List.range k) = some m ↔
      ∃ i, i < k ∧ members.find? (checks i) = some m ∧
        ∀ j < i, members.find? (checks j) = none) := by
  intro k
  induction k with
  | zero => simp [List.range_zero, findLoop]
  | succ k ih =>
    intro m
    rw [List.range_succ, findLoop_append]
    constructor
    · intro h
      cases hk : findLoop members checks (List.range k) with
      | some m' =>
        rw [hk] at h
        simp only at h
        cases h
        rcases (ih m).mp hk with ⟨i, hi, hfind, hmin⟩
        exact ⟨i, Nat.lt_succ_of_lt hi, hfind, hmin⟩
      | none =>
        rw [hk] at h
        simp only [findLoop] at h
        cases hf : members.find? (checks k) with
        | none => rw [hf] at h; exact absurd h (by simp)
        | some m' =>
          rw [hf] at h
          cases h
          exact ⟨k, Nat.lt_succ_self k, hf,
            fun j hj => (findLoop_range_none members checks k).mp hk j hj⟩
    · rintro ⟨i, hi, hfind, hmin⟩
      rcases Nat.lt_succ_iff_lt_or_eq.mp hi with hlt | heq
      · have hk : findLoop members checks (List.range k) = some m :=
          (ih m).mpr ⟨i, hlt, hfind, hmin⟩
        rw [hk]
      · subst heq
        have hk : findLoop members checks (List.range i) = none :=
          (findLoop_range_none members checks i).mpr hmin
        rw [hk]
        simp only [findLoop]
        rw [hfind]

/-- C8: with the mention phase not applying, the resolver applies at most
`min(steps, 3)` predicates in the fixed order exact / prefix / substring
(all case-insensitive), returns the first collection element found by the
first predicate that matches anything, and returns `none` when no predicate
within the allowed steps matches. -/
theorem C8_resolver_staged (members : List String) (name : String) (steps : Nat) :
    (findMemberFuzzy members name steps = none ↔
      ∀ i < min steps 3, members.find? (fuzzyChecks name i) = none) ∧
    (∀ m, findMemberFuzzy members name steps = some m ↔
      ∃ i, i < min steps 3 ∧ members.find? (fuzzyChecks name i) = some m ∧
        ∀ j < i, members.find? (fuzzyChecks name j) = none) := by
  have hmin : (if steps ≤ 3 then steps else 3) = min steps 3 := by
    rw [Nat.min_def]
  constructor
  · rw [findMemberFuzzy, hmin]
    exact findLoop_range_none members (fuzzyChecks name) (min steps 3)
  · intro m
    rw [findMemberFuzzy, hmin]
    exact findLoop_range_some members (fuzzyChecks name) (min steps 3) m

/-- C8 witness: on `["Alice", "Alicia", "Bob"]`, query "alice" resolves
exactly to "Alice"; query "ali" resolves by prefix to "Alice" (the first in
collection order); query "xyz" resolves to nothing. -/
theorem C8_witness :
    findMemberFuzzy ["Alice", "Alicia", "Bob"] "alice" 3 = some "Alice" ∧
    findMemberFuzzy ["Alice", "Alicia", "Bob"] "ali" 3 = some "Alice" ∧
    findMemberFuzzy ["Alice", "Alicia", "Bob"] "xyz" 3 = none := by
  refine ⟨?_, ?_, ?_⟩
  · exact (C8_resolver_staged ["Alice", "Alicia", "Bob"] "alice" 3).2 "Alice" |>.mpr
      ⟨0, by decide, by decide, by intro j hj; exact absurd hj (by simp)⟩
  · exact (C8_resolver_staged ["Alice", "Alicia", "Bob"] "ali" 3).2 "Alice" |>.mpr
      ⟨1, by decide, by decide, by
        intro j hj
        interval_cases j
        decide⟩
  · exact (C8_resolver_staged ["Alice", "Alicia", "Bob"] "xyz" 3).1.mpr
      (by
        intro i hi
        have hi3 : i < 3 := by simpa using hi
        interval_cases i <;> decide)

/-- The backslash character (the `shlex` escape character). -/
def bsChar : Char := Char.ofNat 92

/-- The single-quote character. -/
def sqChar : Char := Char.ofNat 39

/-- The double-quote character (the only member of `shlex.escapedquotes`). -/
def dqChar : Char := Char.ofNat 34

/-- The whitespace set of `shlex` (its `whitespace` attribute). -/
def shlexWS (c : Char) : Bool :=
  c == ' ' || c == '\t' || c == '\r' || c == '\n'

/-- The whitespace set of Python `str.split()` with no argument (ASCII
fragment): space, tab, newline, carriage return, vertical tab, form feed. -/
def pyWS (c : Char) : Bool :=
  c == ' ' || c == '\t' || c == '\n' || c == '\r' ||
  c == Char.ofNat 11 || c == Char.ofNat 12

/-- Lexer states of the posix-mode `shlex` tokenizer as configured by
`shlex.split` (`whitespace_split` on, comments off): between tokens, inside a
word, inside single quotes, inside double quotes, or after an escape
character (recording the state to return to, `'a'` or `'"'`). -/
inductive LexState where
  | space : LexState
  | word : LexState
  | squote : LexState
  | dquote : LexState
  | escWord : LexState
  | escDquote : LexState
deriving DecidableEq

/-- Append the pending token to the token list when it is non-empty or had
quotes applied (posix `shlex` emits `''` for a quoted empty token and
suppresses unquoted empty results). -/
def emitTok (acc : List String) (token : List Char) (quoted : Bool) : List String :=
  if !token.isEmpty || quoted then acc ++ [String.mk token] else acc

/-- The `shlex.read_token` state machine (posix, `whitespace_split`), run over
the whole input, collecting the tokens `shlex.split` would yield.  A dangling
quote ("No closing quotation") or trailing escape ("No escaped character")
raises `ValueError`, modelled as `Except.error`.  Transitions follow
`shlex.read_token`: whitespace ends a token; a backslash escapes the next
character (kept verbatim); quotes group; inside double quotes a backslash
escapes only `"` and `\` and is otherwise kept literally. -/
def shlexRun (st : LexState) (token : List Char) (quoted : Bool)
    (acc : List String) : List Char → Except Unit (List String)
  | [] =>
    match st with
    | LexState.space => Except.ok (emitTok acc token quoted)
    | LexState.word => Except.ok (emitTok acc token quoted)
    | _ => Except.error ()
  | c :: rest =>
    match st with
    | LexState.space =>
      if shlexWS c then
        if !token.isEmpty || quoted then
          shlexRun LexState.space [] false (emitTok acc token quoted) rest
        else shlexRun LexState.space token quoted acc rest
      else if c == bsChar then shlexRun LexState.escWord token quoted acc rest
      else if c == sqChar then shlexRun LexState.squote token quoted acc rest
      else if c == dqChar then shlexRun LexState.dquote token quoted acc rest
      else shlexRun LexState.word [c] quoted acc rest
    | LexState.word =>
      if shlexWS c then
        if !token.isEmpty || quoted then
          shlexRun LexState.space [] false (emitTok acc token quoted) rest
        else shlexRun LexState.space token quoted acc rest
      else if c == sqChar then shlexRun LexState.squote token quoted acc rest
      else if c == dqChar then shlexRun LexState.dquote token quoted acc rest
      else if c == bsChar then shlexRun LexState.escWord token quoted acc rest
      else shlexRun LexState.word (token ++ [c]) quoted acc rest
    | LexState.squote =>
      if c == sqChar then shlexRun LexState.word token true acc rest
      else shlexRun LexState.squote (token ++ [c]) true acc rest
    | LexState.dquote =>
      if c == dqChar then shlexRun LexState.word token true acc rest
      else if c == bsChar then shlexRun LexState.escDquote token true acc rest
      else shlexRun LexState.dquote (token ++ [c]) true acc rest
    | LexState.escWord => shlexRun LexState.word (token ++ [c]) quoted acc rest
    | LexState.escDquote =>
      if c != bsChar && c != dqChar then
        shlexRun LexState.dquote (token ++ [bsChar, c]) quoted acc rest
      else shlexRun LexState.dquote (token ++ [c]) quoted acc rest

/-- `shlex.split(text)`: run the lexer from the initial state. -/
def shlexSplit (s : String) : Except Unit (List String) :=
  shlexRun LexState.space [] false [] s.data

/-- Python `str.split()` with no argument: split on runs of whitespace,
yielding no empty tokens. -/
def pySplitAux : List Char → List Char → List String
  | [], tok => if tok.isEmpty then [] else [String.mk tok.reverse]
  | c :: rest, tok =>
    if pyWS c then
      if tok.isEmpty then pySplitAux rest []
      else String.mk tok.reverse :: pySplitAux rest []
    else pySplitAux rest (c :: tok)

/-- Python `message.content.split()`. -/
def pySplit (s : String) : List String := pySplitAux s.data []

/-- The tokenizer of bot.py (lines 173-177): `shlex.split`, falling back to
whitespace splitting when the quote-aware split raises `ValueError`. -/
def tokenize (s : String) : List String :=
  match shlexSplit s with
  | Except.ok l => l
  | Except.error _ => pySplit s

theorem emitTok_ne (acc : List String) (token : List Char) (quoted : Bool)
    (h : acc ≠ [] ∨ (!token.isEmpty || quoted) = true) :
    emitTok acc token quoted ≠ [] := by
  rcases h with h | h
  · rw [emitTok]
    split
    · simp
    · exact h
  · simp [emitTok, h]

theorem shlexWS_of_pyWS (c : Char) (h : pyWS c = false) : shlexWS c = false := by
  simp only [pyWS, Bool.or_eq_false_iff] at h
  simp only [shlexWS, Bool.or_eq_false_iff]
  exact ⟨⟨⟨h.1.1.1.1.1, h.1.1.1.1.2⟩, h.1.1.2⟩, h.1.1.1.2⟩

theorem pySplitAux_ne_nil :
    ∀ (l : List Char) (tok : List Char),
      (tok ≠ [] ∨ ∃ c ∈ l, pyWS c = false) → pySplitAux l tok ≠ [] := by
  intro l
  induction l with
  | nil =>
    intro tok h
    rcases h with h | ⟨c, hc, _⟩
    · have htok : tok.isEmpty = false := by
        cases tok with
        | nil => exact absurd rfl h
        | cons a tl => rfl
      simp [pySplitAux, htok]
    · exact absurd hc (List.not_mem_nil c)
  | cons c rest ih =>
    intro tok h
    cases hws : pyWS c with
    | true =>
      cases htok : tok.isEmpty with
      | true =>
        have htok' : tok = [] := by
          cases tok with
          | nil => rfl
          | cons a tl => simp at htok
        simp only [pySplitAux, hws, htok, if_true]
        apply ih
        right
        rcases h with h | ⟨c', hc', hw'⟩
        · exact absurd htok' h
        · rcases List.mem_cons.mp hc' with heq | hmem
          · subst heq; rw [hws] at hw'; exact absurd hw' (by simp)
          · exact ⟨c', hmem, hw'⟩
      | false =>
        simp [pySplitAux, hws, htok]
    | false =>
      simp only [pySplitAux, hws, if_false]
      apply ih
      left
      simp

theorem shlexRun_ok_ne_nil :
    ∀ (input : List Char) (st : LexState) (token : List Char) (quoted : Bool)
      (acc : List String) (l : List String),
      shlexRun st token quoted acc input = Except.ok l →
      (acc ≠ [] ∨ token ≠ [] ∨ quoted = true ∨
        st = LexState.squote ∨ st = LexState.dquote ∨
        st = LexState.escWord ∨ st = LexState.escDquote ∨
        ((st = LexState.space ∨ st = LexState.word) ∧
          ∃ c ∈ input, shlexWS c = false)) →
      l ≠ [] := by
  intro input
  induction input with
  | nil =>
    intro st token quoted acc l h hp
    cases st with
    | space =>
      simp only [shlexRun] at h
      injection h with h2
      subst h2
      rcases hp with h1 | h1 | h1 | h1 | h1 | h1 | h1 | ⟨_, c, hc, _⟩
      · exact emitTok_ne _ _ _ (Or.inl h1)
      · refine emitTok_ne _ _ _ (Or.inr ?_)
        simp [h1]
      · refine emitTok_ne _ _ _ (Or.inr ?_)
        simp [h1]
      · exact absurd h1 (by simp)
      · exact absurd h1 (by simp)
      · exact absurd h1 (by simp)
      · exact absurd h1 (by simp)
      · exact absurd hc (List.not_mem_nil c)
    | word =>
      simp only [shlexRun] at h
      injection h with h2
      subst h2
      rcases hp with h1 | h1 | h1 | h1 | h1 | h1 | h1 | ⟨_, c, hc, _⟩
      · exact emitTok_ne _ _ _ (Or.inl h1)
      · refine emitTok_ne _ _ _ (Or.inr ?_)
        simp [h1]
      · refine emitTok_ne _ _ _ (Or.inr ?_)
        simp [h1]
      · exact absurd h1 (by simp)
      · exact absurd h1 (by simp)
      · exact absurd h1 (by simp)
      · exact absurd h1 (by simp)
      · exact absurd hc (List.not_mem_nil c)
    | squote => exact Except.noConfusion h
    | dquote => exact Except.noConfusion h
    | escWord => exact Except.noConfusion h
    | escDquote => exact Except.noConfusion h
  | cons c rest ih =>
    intro st token quoted acc l h hp
    cases st with
    | space =>
      cases hws : shlexWS c with
      | true =>
        cases hbr : (!token.isEmpty || quoted) with
        | true =>
          simp only [shlexRun, hws, hbr, if_true] at h
          exact ih LexState.space [] false (emitTok acc token quoted) l h
            (Or.inl (emitTok_ne _ _ _ (Or.inr hbr)))
        | false =>
          simp only [shlexRun, hws, hbr, if_true, Bool.false_eq_true, if_false] at h
          have htok : token = [] := by
            simp only [Bool.or_eq_false_iff, Bool.not_eq_false'] at hbr
            exact List.isEmpty_iff.mp hbr.1
          have hq : quoted = false := by
            simp only [Bool.or_eq_false_iff] at hbr
            exact hbr.2
          apply ih LexState.space token quoted acc l h
          rcases hp with h1 | h1 | h1 | h1 | h1 | h1 | h1 | ⟨_, c', hc', hw'⟩
          · exact Or.inl h1
          · exact absurd htok h1
          · rw [hq] at h1; exact absurd h1 (by simp)
          · exact absurd h1 (by simp)
          · exact absurd h1 (by simp)
          · exact absurd h1 (by simp)
          · exact absurd h1 (by simp)
          · rcases List.mem_cons.mp hc' with heq | hmem
            · subst heq; rw [hws] at hw'; exact absurd hw' (by simp)
            · exact Or.inr (Or.inr (Or.inr (Or.inr (Or.inr (Or.inr (Or.inr
                ⟨Or.inl rfl, c', hmem, hw'⟩))))))
      | false =>
        cases hc1 : (c == bsChar) with
        | true =>
          simp only [shlexRun, hws, hc1, Bool.false_eq_true, if_false, if_true] at h
          exact ih LexState.escWord token quoted acc l h (by simp)
        | false =>
          cases hc2 : (c == sqChar) with
          | true =>
            simp only [shlexRun, hws, hc1, hc2, Bool.false_eq_true, if_false, if_true] at h
            exact ih LexState.squote token quoted acc l h (by simp)
          | false =>
            cases hc3 : (c == dqChar) with
            | true =>
              simp only [shlexRun, hws, hc1, hc2, hc3, Bool.false_eq_true,
                if_false, if_true] at h
              exact ih LexState.dquote token quoted acc l h (by simp)
            | false =>
              simp only [shlexRun, hws, hc1, hc2, hc3, Bool.false_eq_true,
                if_false] at h
              exact ih LexState.word [c] quoted acc l h (by simp)
    | word =>
      cases hws : shlexWS c with
      | true =>
        cases hbr : (!token.isEmpty || quoted) with
        | true =>
          simp only [shlexRun, hws, hbr, if_true] at h
          exact ih LexState.space [] false (emitTok acc token quoted) l h
            (Or.inl (emitTok_ne _ _ _ (Or.inr hbr)))
        | false =>
          simp only [shlexRun, hws, hbr, if_true, Bool.false_eq_true, if_false] at h
          have htok : token = [] := by
            simp only [Bool.or_eq_false_iff, Bool.not_eq_false'] at hbr
            exact List.isEmpty_iff.mp hbr.1
          have hq : quoted = false := by
            simp only [Bool.or_eq_false_iff] at hbr
            exact hbr.2
          apply ih LexState.space token quoted acc l h
          rcases hp with h1 | h1 | h1 | h1 | h1 | h1 | h1 | ⟨_, c', hc', hw'⟩
          · exact Or.inl h1
          · exact absurd htok h1
          · rw [hq] at h1; exact absurd h1 (by simp)
          · exact absurd h1 (by simp)
          · exact absurd h1 (by simp)
          · exact absurd h1 (by simp)
          · exact absurd h1 (by simp)
          · rcases List.mem_cons.mp hc' with heq | hmem
            · subst heq; rw [hws] at hw'; exact absurd hw' (by simp)
            · exact Or.inr (Or.inr (Or.inr (Or.inr (Or.inr (Or.inr (Or.inr
                ⟨Or.inl rfl, c', hmem, hw'⟩))))))
      | false =>
        cases hc2 : (c == sqChar) with
        | true =>
          simp only [shlexRun, hws, hc2, Bool.false_eq_true, if_false, if_true] at h
          exact ih LexState.squote token quoted acc l h (by simp)
        | false =>
          cases hc3 : (c == dqChar) with
          | true =>
            simp only [shlexRun, hws, hc2, hc3, Bool.false_eq_true, if_false, if_true] at h
            exact ih LexState.dquote token quoted acc l h (by simp)
          | false =>
            cases hc1 : (c == bsChar) with
            | true =>
              simp only [shlexRun, hws, hc1, hc2, hc3, Bool.false_eq_true,
                if_false, if_true] at h
              exact ih LexState.escWord token quoted acc l h (by simp)
            | false =>
              simp only [shlexRun, hws, hc1, hc2, hc3, Bool.false_eq_true,
                if_false] at h
              exact ih LexState.word (token ++ [c]) quoted acc l h (by simp)
    | squote =>
      cases hc2 : (c == sqChar) with
      | true =>
        simp only [shlexRun, hc2, if_true] at h
        exact ih LexState.word token true acc l h (by simp)
      | false =>
        simp only [shlexRun, hc2, Bool.false_eq_true, if_false] at h
        exact ih LexState.squote (token ++ [c]) true acc l h (by simp)
    | dquote =>
      cases hc3 : (c == dqChar) with
      | true =>
        simp only [shlexRun, hc3, if_true] at h
        exact ih LexState.word token true acc l h (by simp)
      | false =>
        cases hc1 : (c == bsChar) with
        | true =>
          simp only [shlexRun, hc3, hc1, Bool.false_eq_true, if_false, if_true] at h
          exact ih LexState.escDquote token true acc l h (by simp)
        | false =>
          simp only [shlexRun, hc3, hc1, Bool.false_eq_true, if_false] at h
          exact ih LexState.dquote (token ++ [c]) true acc l h (by simp)
    | escWord =>
      simp only [shlexRun] at h
      exact ih LexState.word (token ++ [c]) quoted acc l h (by simp)
    | escDquote =>
      cases hcc : (c != bsChar && c != dqChar) with
      | true =>
        simp only [shlexRun, hcc, if_true] at h
        exact ih LexState.dquote (token ++ [bsChar, c]) quoted acc l h (by simp)
      | false =>
        simp only [shlexRun, hcc, Bool.false_eq_true, if_false] at h
        exact ih LexState.dquote (token ++ [c]) quoted acc l h (by simp)

/-- C3 counterexample: the whitespace-only message `" "` is non-empty but
tokenizes to zero tokens. -/
theorem C3_counterexample :
    tokenize " " = [] ∧ (" " : String) ≠ "" := by
  constructor
  · rfl
  · decide

/-- C3 amended: `tokenize` never raises — it is total, and whenever the
quote-aware `shlex` split fails (unbalanced quote or trailing escape) it
returns the raw whitespace split instead; and a message containing at least
one non-whitespace character always yields at least one token.  A non-empty
but whitespace-only message, however, yields zero tokens. -/
theorem C3_tokenize_fallback_nonempty (s : String) :
    ((shlexSplit s).isOk = false → tokenize s = pySplit s) ∧
    ((∃ c ∈ s.data, pyWS c = false) → tokenize s ≠ []) := by
  constructor
  · intro h
    rw [tokenize]
    cases hsp : shlexSplit s with
    | ok l =>
      rw [hsp] at h
      exact absurd h (by simp [Except.isOk, Except.toBool])
    | error e => rfl
  · rintro ⟨c, hc, hw⟩
    rw [tokenize]
    cases hsp : shlexSplit s with
    | ok l =>
      exact shlexRun_ok_ne_nil s.data LexState.space [] false [] l hsp
        (Or.inr (Or.inr (Or.inr (Or.inr (Or.inr (Or.inr (Or.inr
          ⟨Or.inl rfl, c, hc, shlexWS_of_pyWS c hw⟩)))))))
    | error e =>
      exact pySplitAux_ne_nil s.data [] (Or.inr ⟨c, hc, hw⟩)

/-- C3 witness: a message with an unbalanced double quote makes the shlex
split fail; it still tokenizes, via the whitespace fallback, to a non-empty
token list. -/
theorem C3_witness :
    (shlexSplit "say \"a b").isOk = false ∧
    tokenize "say \"a b" = pySplit "say \"a b" ∧
    tokenize "say \"a b" ≠ [] := by
  have h := C3_tokenize_fallback_nonempty "say \"a b"
  exact ⟨rfl, h.1 rfl, h.2 ⟨'s', by decide, by decide⟩⟩
